import Mathlib

/-!
Shallow embedding of the geometric metadata pipeline in
`rig_calibrator/bin/texrecon.py`: the pose-manifest parser
(`parse_images_and_camera_poses`), the intrinsics normalizer
(`convert_intrinsics_to_texrecon`) and the camera-parameter file writer
(`create_texrecon_cameras`).  Python floats are modelled as rationals; file
system reads are modelled by passing the list of lines of the file (with
`Option` for a possibly missing file); file writes are modelled by returning
the list of (path, content) pairs the code would write; Python exceptions and
`sys.exit` are modelled by `Except`.
-/

deriving instance DecidableEq for Except

namespace Texrecon

/-! ### String helpers modelling Python `str` and `os.path` operations -/

/-- Model of Python `str.split()` (no argument): split on maximal runs of
whitespace, returning the non-empty chunks.  Char-list worker with an
accumulator holding the current (reversed) token. -/
def splitWsGo : List Char → List Char → List (List Char)
  | [], acc => if acc.isEmpty then [] else [acc.reverse]
  | c :: cs, acc =>
    if c.isWhitespace then
      if acc.isEmpty then splitWsGo cs [] else acc.reverse :: splitWsGo cs []
    else splitWsGo cs (c :: acc)

/-- Split a character list into whitespace-separated tokens. -/
def splitWs (cs : List Char) : List (List Char) := splitWsGo cs []

/-- Model of Python `str.split()` on strings. -/
def pySplit (s : String) : List String := (splitWs s.data).map String.mk

/-- Model of Python `os.path.basename`: the part of the path after the last
slash (the whole path when there is no slash). -/
def pyBasename (p : String) : String :=
  String.mk ((p.data.reverse.takeWhile (fun c => c ≠ '/')).reverse)

/-- Model of Python `os.path.dirname`: the part before the last slash, with
trailing slashes stripped unless the result consists only of slashes. -/
def pyDirname (p : String) : String :=
  let head := (p.data.reverse.dropWhile (fun c => c ≠ '/')).reverse
  if head ≠ [] ∧ head.any (fun c => c ≠ '/') then
    String.mk ((head.reverse.dropWhile (fun c => c = '/')).reverse)
  else
    String.mk head

/-- Sensor of an image path, as in the source:
`os.path.basename(os.path.dirname(image))`. -/
def sensorOf (image : String) : String := pyBasename (pyDirname image)

/-- Model of Python `os.path.splitext`: split off the extension at the last
dot of the basename, provided some character of the basename before that dot
is not itself a dot. -/
def pySplitExt (p : String) : String × String :=
  let cs := p.data
  let bnRev := cs.reverse.takeWhile (fun c => c ≠ '/')
  let extRev := bnRev.takeWhile (fun c => c ≠ '.')
  if extRev.length = bnRev.length then (p, "")
  else
    let stemRev := bnRev.drop (extRev.length + 1)
    if stemRev.any (fun c => c ≠ '.') then
      (String.mk (cs.take (cs.length - (extRev.length + 1))),
       String.mk ('.' :: extRev.reverse))
    else (p, "")

/-- Comment stripping of a manifest line, as the source's
`re.match("^(.*?)\x23", line)` followed by `line.rstrip()`: keep the
characters before the first hash sign, then strip trailing whitespace. -/
def cleanLine (s : String) : String :=
  String.mk (((s.data.takeWhile (fun c => c ≠ '#')).reverse.dropWhile
    Char.isWhitespace).reverse)

/-- Comment test of an intrinsics line, as the source's
`re.match("^\x5cs*\x23", line)`: optional leading whitespace then a hash. -/
def isIntrComment (line : String) : Bool :=
  match line.data.dropWhile Char.isWhitespace with
  | '#' :: _ => true
  | _ => false

/-! ### A model of Python `float()` on decimal literals -/

/-- Value of a list of decimal digit characters (the caller checks they are
digits and that the list is non-empty where required). -/
def digitsVal (cs : List Char) : Nat :=
  cs.foldl (fun a c => 10 * a + (c.toNat - 48)) 0

/-- Parse a non-empty all-digit character list. -/
def parseDigits (cs : List Char) : Option Nat :=
  if cs ≠ [] ∧ cs.all Char.isDigit then some (digitsVal cs) else none

/-- Parse an optionally signed non-empty digit string as an integer. -/
def parseSignedInt : List Char → Option Int
  | '+' :: t => (parseDigits t).map Int.ofNat
  | '-' :: t => (parseDigits t).map (fun n => -(n : Int))
  | t => (parseDigits t).map Int.ofNat

/-- Model of Python `float()` restricted to finite decimal literals:
optional sign, integer part and/or fractional part, optional exponent.
(The `inf`/`nan` literals and underscore separators accepted by Python are
outside the scope of this model; the pipeline's data is plain decimals.)
Returns the exact rational value, `none` when the token does not parse. -/
def parseFloatQ (s : String) : Option ℚ :=
  let cs0 := s.data
  let sgn : ℚ := match cs0 with
    | '-' :: _ => -1
    | _ => 1
  let cs := match cs0 with
    | '-' :: t => t
    | '+' :: t => t
    | t => t
  let mantCs := cs.takeWhile (fun c => c ≠ 'e' ∧ c ≠ 'E')
  let expRest := cs.dropWhile (fun c => c ≠ 'e' ∧ c ≠ 'E')
  let expVal : Option Int := match expRest with
    | [] => some 0
    | _ :: t => parseSignedInt t
  let intPart := mantCs.takeWhile (fun c => c ≠ '.')
  let dotRest := mantCs.dropWhile (fun c => c ≠ '.')
  let mant : Option ℚ := match dotRest with
    | [] => (parseDigits intPart).map (fun n => (n : ℚ))
    | _ :: frac =>
      if (intPart ≠ [] ∨ frac ≠ []) ∧ intPart.all Char.isDigit ∧
          frac.all Char.isDigit then
        some ((digitsVal intPart : ℚ) + (digitsVal frac : ℚ) / 10 ^ frac.length)
      else none
  match mant, expVal with
  | some m, some e => some (sgn * m * (10 : ℚ) ^ e)
  | _, _ => none

/-- Apply a fallible conversion to each element of a list, failing if any
element fails (models converting each numeric token with `float()`, where the
first failing token raises). -/
def mapOpt (f : α → Option β) : List α → Option (List β)
  | [] => some []
  | a :: as =>
    match f a, mapOpt f as with
    | some b, some bs => some (b :: bs)
    | _, _ => none

/-! ### Errors raised by the pipeline -/

/-- Failure modes of the pipeline stages: `parseError` models the explicit
`raise Exception("Could not parse ...")` sites, `valueError` the `ValueError`
raised by `float()` on a bad token, `missingFile` the explicit
`raise Exception("Missing file ...")`, `countMismatch` the explicit
`raise Exception("Expecting as many images as cameras.")`, `exitFailure` the
`sys.exit(1)` on a short intrinsics line, and `zeroDivision` the Python
`ZeroDivisionError` raised by float division by zero. -/
inductive PipeErr where
  | parseError
  | valueError
  | missingFile
  | countMismatch
  | exitFailure
  | zeroDivision
deriving DecidableEq, Repr

/-- Projection to the error of an `Except` value. -/
def errOf : Except PipeErr α → Option PipeErr
  | .error e => some e
  | .ok _ => none

/-- Projection to the success value of an `Except` value. -/
def okOf : Except PipeErr α → Option α
  | .error _ => none
  | .ok a => some a

/-! ### The 4x4 pose matrix -/

/-- A 4x4 matrix of rationals with named entries, modelling the numpy array
`M` of `parse_images_and_camera_poses`. -/
structure Mat4 where
  m00 : ℚ
  m01 : ℚ
  m02 : ℚ
  m03 : ℚ
  m10 : ℚ
  m11 : ℚ
  m12 : ℚ
  m13 : ℚ
  m20 : ℚ
  m21 : ℚ
  m22 : ℚ
  m23 : ℚ
  m30 : ℚ
  m31 : ℚ
  m32 : ℚ
  m33 : ℚ
deriving DecidableEq, Repr

/-- The matrix `np.ones((4,4))`: every entry is 1. -/
def onesMat4 : Mat4 :=
  ⟨1, 1, 1, 1, 1, 1, 1, 1, 1, 1, 1, 1, 1, 1, 1, 1⟩

/-- Fill `np.ones((4,4))` as the source does: the first nine values go into
the upper-left 3x3 block row by row, the last three into the fourth column of
the first three rows.  The fourth row keeps the ones of the initialization.
(The catch-all branch is never reached: the caller always passes 12 values.) -/
def mkPoseOfList : List ℚ → Mat4
  | [r00, r01, r02, r10, r11, r12, r20, r21, r22, t0, t1, t2] =>
    ⟨r00, r01, r02, t0, r10, r11, r12, t1, r20, r21, r22, t2, 1, 1, 1, 1⟩
  | _ => onesMat4

/-! ### PoseListParser: `parse_images_and_camera_poses` -/

/-- The tokens of a manifest line after comment stripping: the source's
`vals = line.split()`. -/
def lineTokens (line : String) : List String := pySplit (cleanLine line)

/-- The image path of a manifest line: the source's `image = vals[0]`. -/
def lineImage (line : String) : String := (lineTokens line).headD ""

/-- The 12 numeric tokens of a manifest line: the source's
`vals = vals[1:13]`. -/
def lineNums (line : String) : List String :=
  ((lineTokens line).drop 1).take 12

/-- Embedding of `parse_images_and_camera_poses`.  The file is given as its
list of lines.  Per line: strip the comment and trailing whitespace, skip the
line when empty, split into tokens, fail with `parseError` when there are
fewer than 13 tokens, skip the line when the sensor of the image path (first
token) differs from `rig_sensor`, convert the 12 numeric tokens with
`float()` (failure is `valueError`), and record the image with its 4x4 pose
matrix. -/
def parse_images_and_camera_poses :
    List String → String → Except PipeErr (List String × List Mat4)
  | [], _ => .ok ([], [])
  | line :: rest, rig_sensor =>
    if cleanLine line = "" then parse_images_and_camera_poses rest rig_sensor
    else if (lineTokens line).length < 13 then .error .parseError
    else if sensorOf (lineImage line) ≠ rig_sensor then
      parse_images_and_camera_poses rest rig_sensor
    else
      match mapOpt parseFloatQ (lineNums line) with
      | none => .error .valueError
      | some ns =>
        match parse_images_and_camera_poses rest rig_sensor with
        | .error e => .error e
        | .ok (images, world_to_cam) =>
          .ok (lineImage line :: images, mkPoseOfList ns :: world_to_cam)

/-! ### IntrinsicsNormalizer: `convert_intrinsics_to_texrecon` -/

/-- The normalization block of `convert_intrinsics_to_texrecon`: `max_wid` is
the larger of the two dimensions, the focal is divided by it, the principal
point by the respective dimension, the distortion coefficients are fixed at 0
and the pixel aspect ratio at 1.  Result order matches the source's return:
`(nf, d0, d1, paspect, ncx, ncy)`. -/
def normalizeIntrinsics (widx widy f cx cy : ℚ) : ℚ × ℚ × ℚ × ℚ × ℚ × ℚ :=
  let max_wid := if widy > widx then widy else widx
  (f / max_wid, 0, 0, 1, cx / widx, cy / widy)

/-- The line loop of `convert_intrinsics_to_texrecon`: skip comment lines;
the first non-comment line must have at least 5 tokens (else `sys.exit(1)`),
its first five tokens are converted with `float()` (a bad token raises
`ValueError`), a zero divisor raises `ZeroDivisionError`, and a non-positive
normalized focal raises the final parse failure.  An exhausted file leaves
`nf = -1`, which the final check turns into the same parse failure. -/
def convertIntrinsicsLines : List String → Except PipeErr (ℚ × ℚ × ℚ × ℚ × ℚ × ℚ)
  | [] => .error .parseError
  | line :: rest =>
    if isIntrComment line then convertIntrinsicsLines rest
    else
      let vals := pySplit line
      if vals.length < 5 then .error .exitFailure
      else
        match mapOpt parseFloatQ (vals.take 5) with
        | some [widx, widy, f, cx, cy] =>
          if (if widy > widx then widy else widx) = 0 ∨ widx = 0 ∨ widy = 0 then
            .error .zeroDivision
          else
            let r := normalizeIntrinsics widx widy f cx cy
            if r.1 ≤ 0 then .error .parseError else .ok r
        | _ => .error .valueError

/-- Embedding of `convert_intrinsics_to_texrecon`.  The file is `none` when
it does not exist (the `os.path.exists` guard raises the missing-file error),
otherwise its list of lines is processed by `convertIntrinsicsLines`. -/
def convert_intrinsics_to_texrecon (file : Option (List String)) :
    Except PipeErr (ℚ × ℚ × ℚ × ℚ × ℚ × ℚ) :=
  match file with
  | none => .error .missingFile
  | some lines => convertIntrinsicsLines lines

/-! ### CameraFileWriter: `create_texrecon_cameras` -/

/-- Content of one camera parameter file, mirroring the three `g.write`
calls: the translation write ends with a space and no newline, the rotation
write ends the first line, and the intrinsics write forms the second line.
`fmt` abstracts the `%0.17g` numeric formatting of the source. -/
def camFileContent (fmt : ℚ → String) (M : Mat4)
    (nf d0 d1 paspect ncx ncy : ℚ) : String :=
  (fmt M.m03 ++ " " ++ fmt M.m13 ++ " " ++ fmt M.m23 ++ " ") ++
  (fmt M.m00 ++ " " ++ fmt M.m01 ++ " " ++ fmt M.m02 ++ " " ++
   fmt M.m10 ++ " " ++ fmt M.m11 ++ " " ++ fmt M.m12 ++ " " ++
   fmt M.m20 ++ " " ++ fmt M.m21 ++ " " ++ fmt M.m22 ++ "\n") ++
  (fmt nf ++ " " ++ fmt d0 ++ " " ++ fmt d1 ++ " " ++ fmt paspect ++ " " ++
   fmt ncx ++ " " ++ fmt ncy ++ "\n")

/-- Embedding of `create_texrecon_cameras`.  A length mismatch between the
image list and the pose list raises before any file is written; otherwise one
(path, content) pair is produced per image, the path being the image path
with its extension replaced by `.cam`. -/
def create_texrecon_cameras (fmt : ℚ → String)
    (undistorted_images : List String) (world_to_cam : List Mat4)
    (nf d0 d1 paspect ncx ncy : ℚ) :
    Except PipeErr (List (String × String)) :=
  if undistorted_images.length ≠ world_to_cam.length then .error .countMismatch
  else
    .ok ((undistorted_images.zip world_to_cam).map (fun p =>
      ((pySplitExt p.1).1 ++ ".cam",
       camFileContent fmt p.2 nf d0 d1 paspect ncx ncy)))

/-! ### Specification-side helpers -/

/-- A manifest line is acceptable to the parser when, after comment
stripping, it is empty, or it has at least 13 tokens and (when it belongs to
the target sensor) its 12 numeric tokens all parse as floats. -/
def lineOk (rig_sensor : String) (line : String) : Bool :=
  cleanLine line = "" ||
    (decide (13 ≤ (lineTokens line).length) &&
      (sensorOf (lineImage line) ≠ rig_sensor ||
       (lineNums line).all (fun t => (parseFloatQ t).isSome)))

/-- A manifest parses without error exactly when every line is acceptable. -/
def goodManifest (lines : List String) (rig_sensor : String) : Bool :=
  lines.all (lineOk rig_sensor)

/-- The image paths of the qualifying manifest lines, in manifest order: a
line qualifies when it is non-empty after comment stripping and the sensor of
its image path (first token) equals the target sensor. -/
def qualImages (lines : List String) (rig_sensor : String) : List String :=
  lines.filterMap (fun line =>
    if cleanLine line = "" then none
    else if sensorOf (lineImage line) = rig_sensor then some (lineImage line)
    else none)

/-- Split a character list at each newline character; each newline terminates
a segment, so a trailing newline yields a final empty segment. -/
def splitOnNl : List Char → List (List Char)
  | [] => [[]]
  | c :: cs =>
    if c = '\n' then [] :: splitOnNl cs
    else
      match splitOnNl cs with
      | [] => [[c]]
      | l :: ls => (c :: l) :: ls

/-- The newline-terminated lines of a text file's content (an unterminated
final segment is not a line; every content produced here ends in a newline). -/
def fileLines (s : String) : List String :=
  ((splitOnNl s.data).dropLast).map String.mk

/-- The 18 numeric tokens of one camera parameter file, in the order they are
written. -/
def camTokens (fmt : ℚ → String) (M : Mat4)
    (nf d0 d1 paspect ncx ncy : ℚ) : List String :=
  [fmt M.m03, fmt M.m13, fmt M.m23,
   fmt M.m00, fmt M.m01, fmt M.m02,
   fmt M.m10, fmt M.m11, fmt M.m12,
   fmt M.m20, fmt M.m21, fmt M.m22,
   fmt nf, fmt d0, fmt d1, fmt paspect, fmt ncx, fmt ncy]

/-- A well-formed numeric token: non-empty and free of whitespace (the
`%0.17g` rendering of any finite float is such a token). -/
def goodTok (t : String) : Prop :=
  t.data ≠ [] ∧ ∀ c ∈ t.data, c.isWhitespace = false

instance (t : String) : Decidable (goodTok t) := by
  unfold goodTok; infer_instance

/-- A concrete stand-in formatter for witnesses: the default rendering of a
rational. -/
def fmtQ (q : ℚ) : String := toString q

/-- Join character-list tokens with single spaces (the separator convention
of the camera parameter file lines). -/
def joinSp : List (List Char) → List Char
  | [] => []
  | [t] => t
  | t :: ts => t ++ ' ' :: joinSp ts

/-! ### Basic lemmas about the helpers -/

theorem mapOpt_isSome (f : α → Option β) (l : List α) :
    (mapOpt f l).isSome = l.all (fun a => (f a).isSome) := by
  induction l with
  | nil => rfl
  | cons a as ih =>
    simp only [mapOpt, List.all_cons, ← ih]
    cases f a <;> cases mapOpt f as <;> simp

theorem mapOpt_length (f : α → Option β) (l : List α) (bs : List β)
    (h : mapOpt f l = some bs) : bs.length = l.length := by
  induction l generalizing bs with
  | nil => simp only [mapOpt] at h; simp [← Option.some_inj.mp h]
  | cons a as ih =>
    simp only [mapOpt] at h
    cases hfa : f a with
    | none => rw [hfa] at h; exact absurd h (by simp)
    | some b =>
      rw [hfa] at h
      cases hrest : mapOpt f as with
      | none => rw [hrest] at h; exact absurd h (by simp)
      | some bs' =>
        rw [hrest] at h
        simp only [← Option.some_inj.mp h, List.length_cons, ih bs' hrest]

theorem mkPoseOfList_last_row (ns : List ℚ) :
    (mkPoseOfList ns).m30 = 1 ∧ (mkPoseOfList ns).m31 = 1 ∧
    (mkPoseOfList ns).m32 = 1 ∧ (mkPoseOfList ns).m33 = 1 := by
  unfold mkPoseOfList
  split <;> exact ⟨rfl, rfl, rfl, rfl⟩

theorem max_wid_eq_max (widx widy : ℚ) :
    (if widy > widx then widy else widx) = max widx widy := by
  by_cases hw : widx < widy
  · rw [if_pos hw, max_eq_right (le_of_lt hw)]
  · rw [if_neg hw, max_eq_left (not_lt.mp hw)]

/-! ### Claim C2: the normalization formulas -/

unseal Rat.mul Rat.inv Rat.add Rat.sub in
/-- C2.  The intrinsics normalization computes focal / max(width, height),
cx / width, cy / height, zero distortion and unit pixel aspect ratio; on the
record (1200, 1000, 900, 600, 500) the normalizer returns focal 3/4 = 0.75,
cx 1/2 = 0.5, cy 1/2 = 0.5. -/
theorem normalize_intrinsics_spec (w h f cx cy : ℚ) :
    normalizeIntrinsics w h f cx cy = (f / max w h, 0, 0, 1, cx / w, cy / h) ∧
    convert_intrinsics_to_texrecon (some ["1200 1000 900 600 500"]) =
      .ok (3 / 4, 0, 0, 1, 1 / 2, 1 / 2) := by
  refine ⟨?_, by decide⟩
  simp only [normalizeIntrinsics, max_wid_eq_max]

/-! ### Claim C3: the count-mismatch guard -/

/-- C3.  When the image list and the pose list have different lengths,
`create_texrecon_cameras` fails with the count-mismatch error before
producing any file write. -/
theorem create_cameras_count_mismatch (fmt : ℚ → String)
    (undistorted_images : List String) (world_to_cam : List Mat4)
    (nf d0 d1 paspect ncx ncy : ℚ)
    (hlen : undistorted_images.length ≠ world_to_cam.length) :
    create_texrecon_cameras fmt undistorted_images world_to_cam
      nf d0 d1 paspect ncx ncy = .error .countMismatch := by
  simp [create_texrecon_cameras, hlen]

/-- Witness for C3: three images and two poses fail with the count-mismatch
error, exactly as the specification's test demands. -/
theorem create_cameras_count_mismatch_witness :
    create_texrecon_cameras fmtQ ["u/a.jpg", "u/b.jpg", "u/c.jpg"]
      [onesMat4, onesMat4] 1 0 0 1 (1 / 2) (1 / 2) = .error .countMismatch :=
  create_cameras_count_mismatch fmtQ _ _ 1 0 0 1 (1 / 2) (1 / 2) (by decide)

/-! ### Claim C9: determinism of the writing stage -/

/-- C9.  For equal-length inputs the writing stage produces exactly one
(path, content) pair per image, the value being a pure function of the
arguments (so two runs on the same inputs are byte-identical), and every
output path is the image path with its extension replaced by `.cam`. -/
theorem create_cameras_deterministic (fmt : ℚ → String)
    (undistorted_images : List String) (world_to_cam : List Mat4)
    (nf d0 d1 paspect ncx ncy : ℚ)
    (hlen : undistorted_images.length = world_to_cam.length) :
    create_texrecon_cameras fmt undistorted_images world_to_cam
        nf d0 d1 paspect ncx ncy =
      .ok ((undistorted_images.zip world_to_cam).map (fun p =>
        ((pySplitExt p.1).1 ++ ".cam",
         camFileContent fmt p.2 nf d0 d1 paspect ncx ncy))) ∧
    ∀ ws, create_texrecon_cameras fmt undistorted_images world_to_cam
        nf d0 d1 paspect ncx ncy = .ok ws →
      ws.map Prod.fst =
        undistorted_images.map (fun img => (pySplitExt img).1 ++ ".cam") := by
  have hok : create_texrecon_cameras fmt undistorted_images world_to_cam
      nf d0 d1 paspect ncx ncy =
      .ok ((undistorted_images.zip world_to_cam).map (fun p =>
        ((pySplitExt p.1).1 ++ ".cam",
         camFileContent fmt p.2 nf d0 d1 paspect ncx ncy))) := by
    simp [create_texrecon_cameras, hlen]
  refine ⟨hok, fun ws hws => ?_⟩
  rw [hok] at hws
  have hws' := Except.ok.inj hws
  subst hws'
  have hz : (undistorted_images.zip world_to_cam).map Prod.fst =
      undistorted_images :=
    List.map_fst_zip _ _ (le_of_eq hlen)
  calc ((undistorted_images.zip world_to_cam).map (fun p =>
          ((pySplitExt p.1).1 ++ ".cam",
           camFileContent fmt p.2 nf d0 d1 paspect ncx ncy))).map Prod.fst
      = ((undistorted_images.zip world_to_cam).map Prod.fst).map
          (fun img => (pySplitExt img).1 ++ ".cam") := by
        simp [List.map_map]
    _ = undistorted_images.map (fun img => (pySplitExt img).1 ++ ".cam") := by
        rw [hz]

/-! ### Structure lemmas for the manifest parser -/

theorem lineOk_of_empty {line : String} (s : String)
    (h1 : cleanLine line = "") : lineOk s line = true := by
  simp [lineOk, h1]

theorem parse_good_ok (lines : List String) (s : String)
    (h : goodManifest lines s = true) :
    ∃ p, parse_images_and_camera_poses lines s = .ok p := by
  induction lines with
  | nil => exact ⟨([], []), rfl⟩
  | cons line rest ih =>
    rw [goodManifest, List.all_cons, Bool.and_eq_true] at h
    obtain ⟨hline, hrest⟩ := h
    by_cases h1 : cleanLine line = ""
    · simpa [parse_images_and_camera_poses, h1] using ih hrest
    · simp only [lineOk, h1, decide_eq_true_eq, Bool.and_eq_true,
        Bool.or_eq_true] at hline
      rcases hline with hline | hline
      · exact hline.elim
      obtain ⟨hlen, hdisj⟩ := hline
      by_cases h2 : sensorOf (lineImage line) = s
      · have hall : (lineNums line).all
            (fun t => (parseFloatQ t).isSome) = true := by
          rcases hdisj with hd | hd
          · exact absurd h2 (by simpa using hd)
          · exact hd
        have hsome : (mapOpt parseFloatQ (lineNums line)).isSome = true := by
          rw [mapOpt_isSome]; exact hall
        obtain ⟨ns, hns⟩ := Option.isSome_iff_exists.mp hsome
        obtain ⟨⟨imgs, mats⟩, hp⟩ := ih hrest
        refine ⟨(lineImage line :: imgs, mkPoseOfList ns :: mats), ?_⟩
        simp [parse_images_and_camera_poses, h1, Nat.not_lt.mpr hlen, h2,
          hns, hp]
      · obtain ⟨p, hp⟩ := ih hrest
        exact ⟨p, by
          simp [parse_images_and_camera_poses, h1, Nat.not_lt.mpr hlen, h2,
            hp]⟩

theorem parse_bad_err (lines : List String) (s : String)
    (h : goodManifest lines s = false) :
    parse_images_and_camera_poses lines s = .error .parseError ∨
    parse_images_and_camera_poses lines s = .error .valueError := by
  induction lines with
  | nil => simp [goodManifest] at h
  | cons line rest ih =>
    by_cases h1 : cleanLine line = ""
    · have hrest : goodManifest rest s = false := by
        rw [goodManifest, List.all_cons, lineOk_of_empty s h1,
          Bool.true_and] at h
        exact h
      rcases ih hrest with he | he
      · exact Or.inl (by simpa [parse_images_and_camera_poses, h1] using he)
      · exact Or.inr (by simpa [parse_images_and_camera_poses, h1] using he)
    · by_cases h13 : (lineTokens line).length < 13
      · exact Or.inl (by simp [parse_images_and_camera_poses, h1, h13])
      · by_cases h2 : sensorOf (lineImage line) = s
        · cases hm : mapOpt parseFloatQ (lineNums line) with
          | none =>
            exact Or.inr (by
              simp [parse_images_and_camera_poses, h1, h13, h2, hm])
          | some ns =>
            have hall : (lineNums line).all
                (fun t => (parseFloatQ t).isSome) = true := by
              rw [← mapOpt_isSome, hm]; rfl
            have hl : lineOk s line = true := by
              simp [lineOk, h1, Nat.not_lt.mp h13, hall]
            have hrest : goodManifest rest s = false := by
              rw [goodManifest, List.all_cons, hl, Bool.true_and] at h
              exact h
            rcases ih hrest with he | he
            · exact Or.inl (by
                simp [parse_images_and_camera_poses, h1, h13, h2, hm, he])
            · exact Or.inr (by
                simp [parse_images_and_camera_poses, h1, h13, h2, hm, he])
        · have hl : lineOk s line = true := by
            simp [lineOk, h1, Nat.not_lt.mp h13, h2]
          have hrest : goodManifest rest s = false := by
            rw [goodManifest, List.all_cons, hl, Bool.true_and] at h
            exact h
          rcases ih hrest with he | he
          · exact Or.inl (by
              simpa [parse_images_and_camera_poses, h1, h13, h2] using he)
          · exact Or.inr (by
              simpa [parse_images_and_camera_poses, h1, h13, h2] using he)

theorem parse_ok_spec (lines : List String) (s : String)
    (imgs : List String) (mats : List Mat4)
    (h : parse_images_and_camera_poses lines s = .ok (imgs, mats)) :
    imgs = qualImages lines s ∧ imgs.length = mats.length ∧
    ∀ M ∈ mats, M.m30 = 1 ∧ M.m31 = 1 ∧ M.m32 = 1 ∧ M.m33 = 1 := by
  induction lines generalizing imgs mats with
  | nil =>
    simp only [parse_images_and_camera_poses, Except.ok.injEq,
      Prod.mk.injEq] at h
    obtain ⟨h1, h2⟩ := h
    subst h1; subst h2
    simp [qualImages]
  | cons line rest ih =>
    by_cases h1 : cleanLine line = ""
    · have h' : parse_images_and_camera_poses rest s = .ok (imgs, mats) := by
        simpa [parse_images_and_camera_poses, h1] using h
      have := ih imgs mats h'
      simpa [qualImages, h1] using this
    · by_cases h13 : (lineTokens line).length < 13
      · simp [parse_images_and_camera_poses, h1, h13] at h
      · by_cases h2 : sensorOf (lineImage line) = s
        · cases hm : mapOpt parseFloatQ (lineNums line) with
          | none =>
            simp [parse_images_and_camera_poses, h1, h13, h2, hm] at h
          | some ns =>
            cases hp : parse_images_and_camera_poses rest s with
            | error e =>
              simp [parse_images_and_camera_poses, h1, h13, h2, hm, hp] at h
            | ok q =>
              obtain ⟨imgs', mats'⟩ := q
              simp only [parse_images_and_camera_poses, h1, h13, h2, hm, hp,
                if_false, ite_not, ite_false, ite_true, ne_eq,
                not_false_eq_true, Except.ok.injEq, Prod.mk.injEq] at h
              obtain ⟨hh1, hh2⟩ := h
              obtain ⟨hq1, hq2, hq3⟩ := ih imgs' mats' hp
              subst hh1; subst hh2
              refine ⟨?_, ?_, ?_⟩
              · simp [qualImages, h1, h2, hq1]
              · simp [hq2]
              · intro M hM
                rcases List.mem_cons.mp hM with hM | hM
                · subst hM; exact mkPoseOfList_last_row ns
                · exact hq3 M hM
        · have h' : parse_images_and_camera_poses rest s =
              .ok (imgs, mats) := by
            simpa [parse_images_and_camera_poses, h1, h13, h2] using h
          have := ih imgs mats h'
          refine ⟨?_, this.2.1, this.2.2⟩
          simp [qualImages, h1, h2, this.1]

theorem parse_skip_line (pre post : List String) (s line : String)
    (hne : cleanLine line ≠ "")
    (hlen : 13 ≤ (lineTokens line).length)
    (hsen : sensorOf (lineImage line) ≠ s) :
    parse_images_and_camera_poses (pre ++ line :: post) s =
      parse_images_and_camera_poses (pre ++ post) s := by
  induction pre with
  | nil =>
    simp [parse_images_and_camera_poses, hne, Nat.not_lt.mpr hlen, hsen]
  | cons p pre ih =>
    simp only [List.cons_append, parse_images_and_camera_poses,
      List.append_eq, ih]

/-! ### Claim C4 (corrected): error conditions of the manifest parser -/

/-- Counterexample for C4 as stated: a manifest whose only line has fewer
than 13 tokens and belongs to a sensor other than the target; there is no
qualifying line at all, yet the parser aborts with the parse failure instead
of returning zero records. -/
theorem parse_error_conditions_cex :
    parse_images_and_camera_poses ["other/x.jpg 1 2 3"] "cam1" =
      .error .parseError ∧
    qualImages ["other/x.jpg 1 2 3"] "cam1" = [] := by
  constructor
  · rfl
  · rfl

/-- C4 (amended).  The token-count check runs on every non-empty line before
the sensor filter, so the parser succeeds exactly when every non-empty line
has at least 13 tokens and every target-sensor line's 12 numeric tokens parse
as floats; on success it returns one record per qualifying line, and on
failure the error is the parse failure or the float-conversion failure. -/
theorem parse_error_conditions (lines : List String) (rig_sensor : String) :
    (goodManifest lines rig_sensor = true →
      ∃ imgs mats,
        parse_images_and_camera_poses lines rig_sensor = .ok (imgs, mats) ∧
        imgs = qualImages lines rig_sensor) ∧
    (goodManifest lines rig_sensor = false →
      parse_images_and_camera_poses lines rig_sensor = .error .parseError ∨
      parse_images_and_camera_poses lines rig_sensor = .error .valueError) := by
  constructor
  · intro hg
    obtain ⟨⟨imgs, mats⟩, hp⟩ := parse_good_ok lines rig_sensor hg
    exact ⟨imgs, mats, hp, (parse_ok_spec lines rig_sensor imgs mats hp).1⟩
  · exact parse_bad_err lines rig_sensor

/-- Witness for C4: a well-formed one-line manifest parses to its one record,
and a manifest with a short line for a foreign sensor fails. -/
theorem parse_error_conditions_witness :
    (∃ imgs mats,
      parse_images_and_camera_poses ["cam1/a.jpg 1 0 0 0 1 0 0 0 1 0 0 0"]
          "cam1" = .ok (imgs, mats) ∧
      imgs = qualImages ["cam1/a.jpg 1 0 0 0 1 0 0 0 1 0 0 0"] "cam1") ∧
    (parse_images_and_camera_poses ["other/x.jpg 1 2 3"] "cam1" =
        .error .parseError ∨
     parse_images_and_camera_poses ["other/x.jpg 1 2 3"] "cam1" =
        .error .valueError) :=
  ⟨(parse_error_conditions ["cam1/a.jpg 1 0 0 0 1 0 0 0 1 0 0 0"] "cam1").1
      (by decide),
   (parse_error_conditions ["other/x.jpg 1 2 3"] "cam1").2 (by decide)⟩

/-! ### Claim C7: sensor filtering is exact and order-preserving -/

/-- C7.  A successful parse returns exactly the image records whose parent
directory equals the target sensor, in manifest order, with one pose per
image. -/
theorem parse_filter_order (lines : List String) (rig_sensor : String)
    (imgs : List String) (mats : List Mat4)
    (h : parse_images_and_camera_poses lines rig_sensor = .ok (imgs, mats)) :
    imgs = qualImages lines rig_sensor ∧ imgs.length = mats.length :=
  ⟨(parse_ok_spec lines rig_sensor imgs mats h).1,
   (parse_ok_spec lines rig_sensor imgs mats h).2.1⟩

unseal Rat.mul Rat.inv Rat.add Rat.sub in
/-- Witness for C7: a manifest interleaving two sensors yields exactly the
target-sensor images, in order. -/
theorem parse_filter_order_witness :
    ["cam1/a.jpg", "cam1/c.jpg"] =
      qualImages
        ["cam1/a.jpg 1 0 0 0 1 0 0 0 1 0 0 0",
         "cam2/b.jpg 1 0 0 0 1 0 0 0 1 0 0 0",
         "cam1/c.jpg 1 0 0 0 1 0 0 0 1 5 6 7"] "cam1" ∧
    (["cam1/a.jpg", "cam1/c.jpg"] : List String).length =
      ([mkPoseOfList [1, 0, 0, 0, 1, 0, 0, 0, 1, 0, 0, 0],
        mkPoseOfList [1, 0, 0, 0, 1, 0, 0, 0, 1, 5, 6, 7]] : List Mat4).length :=
  parse_filter_order
    ["cam1/a.jpg 1 0 0 0 1 0 0 0 1 0 0 0",
     "cam2/b.jpg 1 0 0 0 1 0 0 0 1 0 0 0",
     "cam1/c.jpg 1 0 0 0 1 0 0 0 1 5 6 7"] "cam1"
    ["cam1/a.jpg", "cam1/c.jpg"]
    [mkPoseOfList [1, 0, 0, 0, 1, 0, 0, 0, 1, 0, 0, 0],
     mkPoseOfList [1, 0, 0, 0, 1, 0, 0, 0, 1, 5, 6, 7]]
    (by decide)

/-! ### Claim C8 (corrected): shape of the produced pose matrices -/

unseal Rat.mul Rat.inv Rat.add Rat.sub in
/-- Counterexample for C8 as stated: the matrix produced for a concrete
manifest line has last row (1, 1, 1, 1) — the `np.ones((4,4))`
initialization — and not (0, 0, 0, 1). -/
theorem parse_pose_last_row_cex :
    (okOf (parse_images_and_camera_poses
        ["cam1/a.jpg 1 0 0 0 1 0 0 0 1 5 6 7"] "cam1")).map
      (fun r => r.2.map (fun M => (M.m30, M.m31, M.m32, M.m33))) =
      some [(1, 1, 1, 1)] ∧
    ((1 : ℚ), (1 : ℚ), (1 : ℚ), (1 : ℚ)) ≠
      ((0 : ℚ), (0 : ℚ), (0 : ℚ), (1 : ℚ)) := by
  constructor
  · decide
  · decide

/-- C8 (amended).  Every pose matrix produced by a successful parse has last
row (1, 1, 1, 1) — the matrix is created as `np.ones((4,4))` and its fourth
row is never overwritten — while the nine parsed rotation values fill the
upper-left 3x3 block row by row and the three translation values fill the
fourth column of the first three rows. -/
theorem parse_pose_matrix_layout (lines : List String) (rig_sensor : String)
    (imgs : List String) (mats : List Mat4)
    (h : parse_images_and_camera_poses lines rig_sensor = .ok (imgs, mats)) :
    (∀ M ∈ mats, M.m30 = 1 ∧ M.m31 = 1 ∧ M.m32 = 1 ∧ M.m33 = 1) ∧
    (∀ r00 r01 r02 r10 r11 r12 r20 r21 r22 t0 t1 t2 : ℚ,
      mkPoseOfList [r00, r01, r02, r10, r11, r12, r20, r21, r22, t0, t1, t2] =
        ⟨r00, r01, r02, t0, r10, r11, r12, t1, r20, r21, r22, t2,
         1, 1, 1, 1⟩) :=
  ⟨(parse_ok_spec lines rig_sensor imgs mats h).2.2,
   fun _ _ _ _ _ _ _ _ _ _ _ _ => rfl⟩

unseal Rat.mul Rat.inv Rat.add Rat.sub in
/-- Witness for C8: the amended last-row fact evaluated on the one pose
matrix parsed from a concrete manifest. -/
theorem parse_pose_matrix_layout_witness :
    (mkPoseOfList [1, 0, 0, 0, 1, 0, 0, 0, 1, 5, 6, 7]).m30 = 1 ∧
    (mkPoseOfList [1, 0, 0, 0, 1, 0, 0, 0, 1, 5, 6, 7]).m31 = 1 ∧
    (mkPoseOfList [1, 0, 0, 0, 1, 0, 0, 0, 1, 5, 6, 7]).m32 = 1 ∧
    (mkPoseOfList [1, 0, 0, 0, 1, 0, 0, 0, 1, 5, 6, 7]).m33 = 1 :=
  (parse_pose_matrix_layout ["cam1/a.jpg 1 0 0 0 1 0 0 0 1 5 6 7"] "cam1"
    ["cam1/a.jpg"] [mkPoseOfList [1, 0, 0, 0, 1, 0, 0, 0, 1, 5, 6, 7]]
    (by decide)).1
    (mkPoseOfList [1, 0, 0, 0, 1, 0, 0, 0, 1, 5, 6, 7])
    (List.mem_singleton.mpr rfl)

/-! ### Claim C10: check order of the manifest parser -/

/-- C10.  The fewer-than-13-tokens check precedes the sensor filter: a short
non-empty line anywhere in the manifest aborts parsing whatever its sensor;
by contrast float conversion happens only after the filter, so a line with at
least 13 tokens for a different sensor is skipped without its numeric tokens
ever being converted. -/
theorem parse_check_order (lines : List String) (rig_sensor : String) :
    (∀ line ∈ lines, cleanLine line ≠ "" →
      (lineTokens line).length < 13 →
      parse_images_and_camera_poses lines rig_sensor = .error .parseError ∨
      parse_images_and_camera_poses lines rig_sensor = .error .valueError) ∧
    (∀ (pre post : List String) (line : String),
      lines = pre ++ line :: post → cleanLine line ≠ "" →
      13 ≤ (lineTokens line).length →
      sensorOf (lineImage line) ≠ rig_sensor →
      parse_images_and_camera_poses lines rig_sensor =
        parse_images_and_camera_poses (pre ++ post) rig_sensor) := by
  constructor
  · intro line hmem hne h13
    apply parse_bad_err
    rw [goodManifest, List.all_eq_false]
    refine ⟨line, hmem, ?_⟩
    simp [lineOk, hne, Nat.lt_iff_add_one_le.mp h13, Nat.not_le.mpr h13]
  · intro pre post line hsplit hne h13 hsen
    rw [hsplit]
    exact parse_skip_line pre post rig_sensor line hne h13 hsen

/-- Witness for C10: a short line of a foreign sensor aborts a parse for
`cam1`, and a 13-token line of a foreign sensor with unparseable numeric
tokens is skipped with no effect on the result. -/
theorem parse_check_order_witness :
    (parse_images_and_camera_poses
        ["cam2/y.jpg 1 2", "cam1/a.jpg 1 0 0 0 1 0 0 0 1 0 0 0"] "cam1" =
        .error .parseError ∨
     parse_images_and_camera_poses
        ["cam2/y.jpg 1 2", "cam1/a.jpg 1 0 0 0 1 0 0 0 1 0 0 0"] "cam1" =
        .error .valueError) ∧
    parse_images_and_camera_poses
        ["cam2/bad.jpg a b c d e f g h i j k l",
         "cam1/a.jpg 1 0 0 0 1 0 0 0 1 0 0 0"] "cam1" =
      parse_images_and_camera_poses
        ["cam1/a.jpg 1 0 0 0 1 0 0 0 1 0 0 0"] "cam1" :=
  ⟨(parse_check_order
      ["cam2/y.jpg 1 2", "cam1/a.jpg 1 0 0 0 1 0 0 0 1 0 0 0"] "cam1").1
      "cam2/y.jpg 1 2" (by decide) (by decide) (by decide),
   (parse_check_order
      ["cam2/bad.jpg a b c d e f g h i j k l",
       "cam1/a.jpg 1 0 0 0 1 0 0 0 1 0 0 0"] "cam1").2
      [] ["cam1/a.jpg 1 0 0 0 1 0 0 0 1 0 0 0"]
      "cam2/bad.jpg a b c d e f g h i j k l"
      (by decide) (by decide) (by decide) (by decide)⟩

/-! ### Structure lemmas for the intrinsics normalizer -/

theorem convert_comment_skip (line : String) (rest : List String)
    (h : isIntrComment line = true) :
    convertIntrinsicsLines (line :: rest) = convertIntrinsicsLines rest := by
  simp [convertIntrinsicsLines, h]

theorem convert_skip_comments (pre ls : List String)
    (h : ∀ l ∈ pre, isIntrComment l = true) :
    convertIntrinsicsLines (pre ++ ls) = convertIntrinsicsLines ls := by
  induction pre with
  | nil => rfl
  | cons p pre ih =>
    rw [List.cons_append, convert_comment_skip p _ (h p (List.mem_cons_self p pre))]
    exact ih (fun l hl => h l (List.mem_cons_of_mem p hl))

theorem convert_rest_ignored (line : String) (rest rest' : List String)
    (hc : isIntrComment line = false) :
    convertIntrinsicsLines (line :: rest) =
      convertIntrinsicsLines (line :: rest') := by
  simp only [convertIntrinsicsLines, hc, Bool.false_eq_true, if_false]

theorem convert_first_data (line : String) (rest : List String)
    (w h f cx cy : ℚ) (hc : isIntrComment line = false)
    (hm : mapOpt parseFloatQ ((pySplit line).take 5) = some [w, h, f, cx, cy])
    (hw : w ≠ 0) (hh : h ≠ 0) :
    convertIntrinsicsLines (line :: rest) =
      if f / max w h ≤ 0 then .error .parseError
      else .ok (f / max w h, 0, 0, 1, cx / w, cy / h) := by
  have hlen : ¬ (pySplit line).length < 5 := by
    have h5 := mapOpt_length _ _ _ hm
    simp only [List.length_take, List.length_cons, List.length_nil] at h5
    omega
  have hmax : max w h ≠ 0 := by
    rcases max_choice w h with hch | hch <;> rw [hch] <;> assumption
  have hzero : ¬ (max w h = 0 ∨ w = 0 ∨ h = 0) := by
    push_neg
    exact ⟨hmax, hw, hh⟩
  simp only [convertIntrinsicsLines, hc, Bool.false_eq_true, if_false,
    hlen, hm, normalizeIntrinsics, max_wid_eq_max]
  rw [if_neg hzero]

/-! ### Splitting lemmas for the camera-file content -/

theorem strData_append (s t : String) : (s ++ t).data = s.data ++ t.data :=
  rfl

theorem spaceData : (" " : String).data = [' '] := rfl

theorem nlData : ("\n" : String).data = ['\n'] := rfl

theorem mk_data (s : String) : String.mk s.data = s := rfl

theorem splitOnNl_ne_nil (cs : List Char) : splitOnNl cs ≠ [] := by
  induction cs with
  | nil => simp [splitOnNl]
  | cons c cs ih =>
    by_cases h : c = '\n'
    · simp [splitOnNl, h]
    · simp only [splitOnNl, h, if_false]
      cases hs : splitOnNl cs with
      | nil => simp
      | cons l ls => simp

theorem splitOnNl_append (a b : List Char) (l : List Char)
    (ls : List (List Char)) (ha : '\n' ∉ a) (hb : splitOnNl b = l :: ls) :
    splitOnNl (a ++ b) = (a ++ l) :: ls := by
  induction a with
  | nil => simpa using hb
  | cons c a ih =>
    have hc : c ≠ '\n' := fun hc => ha (hc ▸ List.mem_cons_self c a)
    have ha' : '\n' ∉ a := fun hm => ha (List.mem_cons_of_mem c hm)
    simp only [List.cons_append, splitOnNl, hc, if_false, List.append_eq]
    rw [ih ha']

theorem splitOnNl_two (A B : List Char) (hA : '\n' ∉ A) (hB : '\n' ∉ B) :
    splitOnNl (A ++ '\n' :: (B ++ ['\n'])) = [A, B, []] := by
  have h0 : splitOnNl ['\n'] = [[], []] := rfl
  have h1 : splitOnNl (B ++ ['\n']) = [B, []] := by
    have := splitOnNl_append B ['\n'] [] [[]] hB h0
    simpa using this
  have h2 : splitOnNl ('\n' :: (B ++ ['\n'])) = [[], B, []] := by
    simp [splitOnNl, h1]
  have := splitOnNl_append A ('\n' :: (B ++ ['\n'])) [] [B, []] hA h2
  simpa using this

theorem splitWsGo_nonws (a t acc : List Char)
    (ha : ∀ c ∈ a, c.isWhitespace = false) :
    splitWsGo (a ++ t) acc = splitWsGo t (a.reverse ++ acc) := by
  induction a generalizing acc with
  | nil => simp
  | cons c a ih =>
    have hc : c.isWhitespace = false := ha c (List.mem_cons_self c a)
    have ha' : ∀ d ∈ a, d.isWhitespace = false :=
      fun d hd => ha d (List.mem_cons_of_mem c hd)
    simp only [List.cons_append, splitWsGo, hc, Bool.false_eq_true, if_false,
      List.append_eq]
    rw [ih (c :: acc) ha']
    simp

theorem splitWs_token (a rest : List Char) (hne : a ≠ [])
    (ha : ∀ c ∈ a, c.isWhitespace = false) :
    splitWs (a ++ ' ' :: rest) = a :: splitWs rest := by
  unfold splitWs
  rw [splitWsGo_nonws a (' ' :: rest) [] ha]
  have hrev : (a.reverse ++ []).isEmpty = false := by
    simp [List.isEmpty_iff, hne]
  simp only [splitWsGo, hrev, Bool.false_eq_true, if_false,
    Char.isWhitespace, if_pos]
  simp

theorem splitWs_last (a : List Char) (hne : a ≠ [])
    (ha : ∀ c ∈ a, c.isWhitespace = false) :
    splitWs a = [a] := by
  unfold splitWs
  have := splitWsGo_nonws a [] [] ha
  rw [List.append_nil] at this
  rw [this]
  have hrev : (a.reverse ++ []).isEmpty = false := by
    simp [List.isEmpty_iff, hne]
  simp only [splitWsGo, hrev, Bool.false_eq_true, if_false]
  simp

theorem splitWs_joinSp (ts : List (List Char))
    (h : ∀ t ∈ ts, t ≠ [] ∧ ∀ c ∈ t, c.isWhitespace = false)
    (hne : ts ≠ []) : splitWs (joinSp ts) = ts := by
  induction ts with
  | nil => exact absurd rfl hne
  | cons t ts ih =>
    cases ts with
    | nil =>
      have ht := h t (List.mem_cons_self t [])
      rw [show joinSp [t] = t from rfl]
      exact splitWs_last t ht.1 ht.2
    | cons u us =>
      have ht := h t (List.mem_cons_self t (u :: us))
      rw [show joinSp (t :: u :: us) = t ++ ' ' :: joinSp (u :: us) from rfl]
      rw [splitWs_token t _ ht.1 ht.2]
      rw [ih (fun x hx => h x (List.mem_cons_of_mem t hx)) (by simp)]

theorem noNl_joinSp (ts : List (List Char))
    (h : ∀ t ∈ ts, ∀ c ∈ t, c.isWhitespace = false) : '\n' ∉ joinSp ts := by
  induction ts with
  | nil => simp [joinSp]
  | cons t ts ih =>
    have ht : '\n' ∉ t := fun hm => by
      have := h t (List.mem_cons_self t ts) '\n' hm
      simp [Char.isWhitespace] at this
    cases ts with
    | nil => simpa [joinSp] using ht
    | cons u us =>
      rw [show joinSp (t :: u :: us) = t ++ ' ' :: joinSp (u :: us) from rfl]
      intro hmem
      rcases List.mem_append.mp hmem with hm | hm
      · exact ht hm
      · rcases List.mem_cons.mp hm with hm | hm
        · exact absurd hm.symm (by decide)
        · exact ih (fun x hx => h x (List.mem_cons_of_mem t hx)) hm

theorem fileLines_of_two (A B : List Char) (s : String)
    (hA : '\n' ∉ A) (hB : '\n' ∉ B)
    (hs : s.data = A ++ '\n' :: (B ++ ['\n'])) :
    fileLines s = [String.mk A, String.mk B] := by
  unfold fileLines
  rw [hs, splitOnNl_two A B hA hB]
  rfl

theorem map_data_mk (l : List String) :
    (l.map String.data).map String.mk = l := by
  induction l with
  | nil => rfl
  | cons t l ih => simp [ih, mk_data]

/-! ### Claim C1 (corrected): layout of the camera parameter file -/

unseal Rat.mul Rat.inv Rat.add Rat.sub in
/-- Counterexample for C1 as stated: the translation write ends with a space
and no newline, so a concrete camera parameter file has exactly two
newline-terminated lines, not three. -/
theorem cam_file_content_lines_cex :
    (fileLines (camFileContent fmtQ
        (mkPoseOfList [1, 0, 0, 0, 1, 0, 0, 0, 1, 0, 0, 0])
        (1 / 2) 0 0 1 (1 / 2) (1 / 2))).length = 2 ∧ (2 : ℕ) ≠ 3 := by
  constructor
  · decide
  · decide

/-- C1 (amended).  For any formatter producing non-empty whitespace-free
tokens, the camera parameter file consists of exactly two newline-terminated
lines: the first holds translation x, y, z followed by the nine rotation
entries in row-major order, the second holds normalized focal, the two
distortion coefficients, the pixel aspect ratio and the normalized principal
point. -/
theorem cam_file_content_lines (fmt : ℚ → String) (M : Mat4)
    (nf d0 d1 paspect ncx ncy : ℚ)
    (hgood : ∀ t ∈ camTokens fmt M nf d0 d1 paspect ncx ncy, goodTok t) :
    (fileLines (camFileContent fmt M nf d0 d1 paspect ncx ncy)).map pySplit =
      [[fmt M.m03, fmt M.m13, fmt M.m23, fmt M.m00, fmt M.m01, fmt M.m02,
        fmt M.m10, fmt M.m11, fmt M.m12, fmt M.m20, fmt M.m21, fmt M.m22],
       [fmt nf, fmt d0, fmt d1, fmt paspect, fmt ncx, fmt ncy]] := by
  have hts : ∀ t ∈ ([fmt M.m03, fmt M.m13, fmt M.m23, fmt M.m00, fmt M.m01,
      fmt M.m02, fmt M.m10, fmt M.m11, fmt M.m12, fmt M.m20, fmt M.m21,
      fmt M.m22] : List String), goodTok t := by
    intro t ht
    apply hgood
    rw [show camTokens fmt M nf d0 d1 paspect ncx ncy =
      [fmt M.m03, fmt M.m13, fmt M.m23, fmt M.m00, fmt M.m01, fmt M.m02,
       fmt M.m10, fmt M.m11, fmt M.m12, fmt M.m20, fmt M.m21, fmt M.m22] ++
      [fmt nf, fmt d0, fmt d1, fmt paspect, fmt ncx, fmt ncy] from rfl]
    exact List.mem_append_left _ ht
  have hus : ∀ t ∈ ([fmt nf, fmt d0, fmt d1, fmt paspect, fmt ncx,
      fmt ncy] : List String), goodTok t := by
    intro t ht
    apply hgood
    rw [show camTokens fmt M nf d0 d1 paspect ncx ncy =
      [fmt M.m03, fmt M.m13, fmt M.m23, fmt M.m00, fmt M.m01, fmt M.m02,
       fmt M.m10, fmt M.m11, fmt M.m12, fmt M.m20, fmt M.m21, fmt M.m22] ++
      [fmt nf, fmt d0, fmt d1, fmt paspect, fmt ncx, fmt ncy] from rfl]
    exact List.mem_append_right _ ht
  have hA : ∀ a ∈ ([fmt M.m03, fmt M.m13, fmt M.m23, fmt M.m00, fmt M.m01,
      fmt M.m02, fmt M.m10, fmt M.m11, fmt M.m12, fmt M.m20, fmt M.m21,
      fmt M.m22] : List String).map String.data,
      a ≠ [] ∧ ∀ c ∈ a, c.isWhitespace = false := by
    intro a ha
    rcases List.mem_map.mp ha with ⟨t, ht, rfl⟩
    exact hts t ht
  have hB : ∀ a ∈ ([fmt nf, fmt d0, fmt d1, fmt paspect, fmt ncx,
      fmt ncy] : List String).map String.data,
      a ≠ [] ∧ ∀ c ∈ a, c.isWhitespace = false := by
    intro a ha
    rcases List.mem_map.mp ha with ⟨t, ht, rfl⟩
    exact hus t ht
  have hAnl : '\n' ∉ joinSp (([fmt M.m03, fmt M.m13, fmt M.m23, fmt M.m00,
      fmt M.m01, fmt M.m02, fmt M.m10, fmt M.m11, fmt M.m12, fmt M.m20,
      fmt M.m21, fmt M.m22] : List String).map String.data) :=
    noNl_joinSp _ (fun t ht => (hA t ht).2)
  have hBnl : '\n' ∉ joinSp (([fmt nf, fmt d0, fmt d1, fmt paspect, fmt ncx,
      fmt ncy] : List String).map String.data) :=
    noNl_joinSp _ (fun t ht => (hB t ht).2)
  have hdata : (camFileContent fmt M nf d0 d1 paspect ncx ncy).data =
      joinSp (([fmt M.m03, fmt M.m13, fmt M.m23, fmt M.m00, fmt M.m01,
        fmt M.m02, fmt M.m10, fmt M.m11, fmt M.m12, fmt M.m20, fmt M.m21,
        fmt M.m22] : List String).map String.data) ++
      '\n' :: (joinSp (([fmt nf, fmt d0, fmt d1, fmt paspect, fmt ncx,
        fmt ncy] : List String).map String.data) ++ ['\n']) := by
    simp [camFileContent, joinSp, strData_append, spaceData, nlData,
      List.append_assoc]
  rw [fileLines_of_two _ _ _ hAnl hBnl hdata]
  have hps : ∀ cs : List Char,
      pySplit (String.mk cs) = (splitWs cs).map String.mk := fun _ => rfl
  simp only [List.map_cons, List.map_nil, hps]
  simp only [List.map_cons, List.map_nil] at hA hB
  rw [splitWs_joinSp _ hA (by simp), splitWs_joinSp _ hB (by simp)]
  simp [mk_data]

unseal Rat.mul Rat.inv Rat.add Rat.sub in
/-- Witness for C1 (amended): the two-line token layout evaluated on the
identity pose with concrete normalized intrinsics. -/
theorem cam_file_content_lines_witness :
    (fileLines (camFileContent fmtQ
        (mkPoseOfList [1, 0, 0, 0, 1, 0, 0, 0, 1, 0, 0, 0])
        (1 / 2) 0 0 1 (1 / 2) (1 / 2))).map pySplit =
      [[fmtQ (mkPoseOfList [1, 0, 0, 0, 1, 0, 0, 0, 1, 0, 0, 0]).m03,
        fmtQ (mkPoseOfList [1, 0, 0, 0, 1, 0, 0, 0, 1, 0, 0, 0]).m13,
        fmtQ (mkPoseOfList [1, 0, 0, 0, 1, 0, 0, 0, 1, 0, 0, 0]).m23,
        fmtQ (mkPoseOfList [1, 0, 0, 0, 1, 0, 0, 0, 1, 0, 0, 0]).m00,
        fmtQ (mkPoseOfList [1, 0, 0, 0, 1, 0, 0, 0, 1, 0, 0, 0]).m01,
        fmtQ (mkPoseOfList [1, 0, 0, 0, 1, 0, 0, 0, 1, 0, 0, 0]).m02,
        fmtQ (mkPoseOfList [1, 0, 0, 0, 1, 0, 0, 0, 1, 0, 0, 0]).m10,
        fmtQ (mkPoseOfList [1, 0, 0, 0, 1, 0, 0, 0, 1, 0, 0, 0]).m11,
        fmtQ (mkPoseOfList [1, 0, 0, 0, 1, 0, 0, 0, 1, 0, 0, 0]).m12,
        fmtQ (mkPoseOfList [1, 0, 0, 0, 1, 0, 0, 0, 1, 0, 0, 0]).m20,
        fmtQ (mkPoseOfList [1, 0, 0, 0, 1, 0, 0, 0, 1, 0, 0, 0]).m21,
        fmtQ (mkPoseOfList [1, 0, 0, 0, 1, 0, 0, 0, 1, 0, 0, 0]).m22],
       [fmtQ (1 / 2), fmtQ 0, fmtQ 0, fmtQ 1, fmtQ (1 / 2), fmtQ (1 / 2)]] :=
  cam_file_content_lines fmtQ
    (mkPoseOfList [1, 0, 0, 0, 1, 0, 0, 0, 1, 0, 0, 0])
    (1 / 2) 0 0 1 (1 / 2) (1 / 2) (by decide)

/-! ### Claim C5 (corrected): failure modes of the intrinsics normalizer -/

unseal Rat.mul Rat.inv Rat.add Rat.sub in
/-- Counterexample for C5 as stated: the intrinsics line `0 2 1 1 1` has five
tokens and its normalized focal 1/2 is strictly positive (1 divided by
max(0, 2)), yet the code fails — `cx / width` is a float division by zero —
instead of succeeding. -/
theorem convert_intrinsics_failure_modes_cex :
    convert_intrinsics_to_texrecon (some ["0 2 1 1 1"]) =
      .error .zeroDivision ∧
    (0 : ℚ) < 1 / max (0 : ℚ) 2 := by
  constructor
  · decide
  · decide

/-- C5 (amended).  The normalizer fails with the missing-file error when the
file is absent and with the parse failure when every line is a comment or
when the normalized focal length is not strictly positive; a first data line
with at least 5 float tokens, nonzero width and height, and positive
normalized focal succeeds with the normalized tuple. -/
theorem convert_intrinsics_failure_modes :
    (convert_intrinsics_to_texrecon none = .error .missingFile) ∧
    (∀ lines : List String, (∀ l ∈ lines, isIntrComment l = true) →
      convert_intrinsics_to_texrecon (some lines) = .error .parseError) ∧
    (∀ (pre : List String) (line : String) (rest : List String)
        (w h f cx cy : ℚ),
      (∀ l ∈ pre, isIntrComment l = true) →
      isIntrComment line = false →
      mapOpt parseFloatQ ((pySplit line).take 5) = some [w, h, f, cx, cy] →
      w ≠ 0 → h ≠ 0 →
      (0 < f / max w h →
        convert_intrinsics_to_texrecon (some (pre ++ line :: rest)) =
          .ok (f / max w h, 0, 0, 1, cx / w, cy / h)) ∧
      (f / max w h ≤ 0 →
        convert_intrinsics_to_texrecon (some (pre ++ line :: rest)) =
          .error .parseError)) := by
  refine ⟨rfl, ?_, ?_⟩
  · intro lines hall
    show convertIntrinsicsLines lines = .error .parseError
    have := convert_skip_comments lines [] hall
    rw [List.append_nil] at this
    rw [this]
    rfl
  · intro pre line rest w h f cx cy hpre hc hm hw hh
    have hfirst : convert_intrinsics_to_texrecon (some (pre ++ line :: rest)) =
        convertIntrinsicsLines (line :: rest) :=
      convert_skip_comments pre (line :: rest) hpre
    rw [hfirst, convert_first_data line rest w h f cx cy hc hm hw hh]
    constructor
    · intro hpos
      rw [if_neg (not_le.mpr hpos)]
    · intro hle
      rw [if_pos hle]

unseal Rat.mul Rat.inv Rat.add Rat.sub in
/-- Witness for C5: a comment line followed by the record 100 100 50 50 50
succeeds with the normalized tuple, and a file of only comments fails with
the parse failure. -/
theorem convert_intrinsics_failure_modes_witness :
    convert_intrinsics_to_texrecon (some ["# c", "100 100 50 50 50"]) =
      .ok (1 / 2, 0, 0, 1, 1 / 2, 1 / 2) ∧
    convert_intrinsics_to_texrecon (some ["# a", "# b"]) =
      .error .parseError := by
  constructor
  · have h := (convert_intrinsics_failure_modes.2.2 ["# c"]
      "100 100 50 50 50" [] 100 100 50 50 50 (by decide) (by decide)
      (by decide) (by decide) (by decide)).1 (by decide)
    have ha : (["# c"] ++ "100 100 50 50 50" :: [] : List String) =
        ["# c", "100 100 50 50 50"] := rfl
    rw [ha] at h
    rw [h]
    decide
  · exact convert_intrinsics_failure_modes.2.1 ["# a", "# b"] (by decide)

/-! ### Claim C6 (corrected): first-data-line discipline of the normalizer -/

/-- Counterexample for C6 as stated: a non-comment line with fewer than 5
tokens is not skipped — the run aborts via `sys.exit(1)` even though a valid
record follows on the next line. -/
theorem convert_first_line_discipline_cex :
    convert_intrinsics_to_texrecon (some ["1 2", "100 100 50 50 50"]) =
      .error .exitFailure := by
  decide

/-- C6 (amended).  Comment lines are skipped; the first non-comment line
alone determines the result — all later lines are ignored — and when that
line has fewer than 5 tokens the run aborts with the exit failure instead of
continuing the search. -/
theorem convert_first_line_discipline :
    (∀ (line : String) (rest : List String), isIntrComment line = true →
      convert_intrinsics_to_texrecon (some (line :: rest)) =
        convert_intrinsics_to_texrecon (some rest)) ∧
    (∀ (line : String) (rest rest' : List String),
      isIntrComment line = false →
      convert_intrinsics_to_texrecon (some (line :: rest)) =
        convert_intrinsics_to_texrecon (some (line :: rest'))) ∧
    (∀ (line : String) (rest : List String), isIntrComment line = false →
      (pySplit line).length < 5 →
      convert_intrinsics_to_texrecon (some (line :: rest)) =
        .error .exitFailure) := by
  refine ⟨?_, ?_, ?_⟩
  · intro line rest h
    exact convert_comment_skip line rest h
  · intro line rest rest' h
    exact convert_rest_ignored line rest rest' h
  · intro line rest hc h5
    show convertIntrinsicsLines (line :: rest) = .error .exitFailure
    simp only [convertIntrinsicsLines, hc, Bool.false_eq_true, if_false,
      h5, if_pos]

/-- Witness for C6: a comment line is skipped, a trailing line after the
first data line is ignored, and a short first data line aborts. -/
theorem convert_first_line_discipline_witness :
    convert_intrinsics_to_texrecon (some ["# x", "1 2 3 4 5"]) =
      convert_intrinsics_to_texrecon (some ["1 2 3 4 5"]) ∧
    convert_intrinsics_to_texrecon (some ["100 100 50 50 50", "junk"]) =
      convert_intrinsics_to_texrecon (some ["100 100 50 50 50"]) ∧
    convert_intrinsics_to_texrecon (some ["1 2"]) = .error .exitFailure :=
  ⟨convert_first_line_discipline.1 "# x" ["1 2 3 4 5"] (by decide),
   convert_first_line_discipline.2.1 "100 100 50 50 50" ["junk"] []
     (by decide),
   convert_first_line_discipline.2.2 "1 2" [] (by decide) (by decide)⟩

/-- Witness for C9: the writing stage on one image with the identity pose and
the end-to-end intrinsics of the specification's example. -/
theorem create_cameras_deterministic_witness :
    create_texrecon_cameras fmtQ ["u/a.jpg"]
        [mkPoseOfList [1, 0, 0, 0, 1, 0, 0, 0, 1, 0, 0, 0]]
        (1 / 2) 0 0 1 (1 / 2) (1 / 2) =
      .ok ((["u/a.jpg"].zip
            [mkPoseOfList [1, 0, 0, 0, 1, 0, 0, 0, 1, 0, 0, 0]]).map (fun p =>
        ((pySplitExt p.1).1 ++ ".cam",
         camFileContent fmtQ p.2 (1 / 2) 0 0 1 (1 / 2) (1 / 2)))) :=
  (create_cameras_deterministic fmtQ _ _ (1 / 2) 0 0 1 (1 / 2) (1 / 2)
    (by decide)).1

end Texrecon
